import Mathlib

/-!
Shallow embedding of the admin-app command endpoint (src/admin.rs).

The endpoint resolves raw command bytes coming in over two transports (a
CTAPHID vendor-command channel and an ISO 7816 smartcard channel) into a
canonical command set and executes them against an injected trussed client
and reboot capability.  Calls into the collaborators (trussed syscalls and
the `Reboot` trait) are modelled by an environment record supplying their
results, and by a list of recorded effects, so that "the capability was
never invoked" is observable — the non-returning reboot functions are
modelled as recording doubles that return, exactly as the crate's own
design notes prescribe for test harnesses.
-/

deriving instance DecidableEq for Except

namespace AdminApp

/-- Canonical command set: `enum Command` in src/admin.rs. -/
inductive Command
  | update
  | reboot
  | rng
  | version
  | uuid
  | locked
  | wink
deriving DecidableEq

/-- Endpoint error type: `enum Error` in src/admin.rs. -/
inductive Error
  | invalidLength
  | notAvailable
  | unsupportedCommand
deriving DecidableEq

/-- Vendor command byte values.  `VendorCommand::Hxx` in ctaphid-dispatch
carries exactly the byte value `xx`; the constants below mirror the
`const` items of src/admin.rs. -/
def ADMIN : Nat := 0x72

def UPDATE : Nat := 0x51

def REBOOT : Nat := 0x53

def RNG : Nat := 0x60

def VERSION : Nat := 0x61

def UUID : Nat := 0x62

def LOCKED : Nat := 0x63

def RNG_DATA_LEN : Nat := 57

def USER_PRESENCE_TIMEOUT_SECS : Nat := 15

/-- CTAPHID command as seen by the app: `ctaphid_dispatch::app::Command`.
A vendor command carries its byte code (0x40..=0x7F). -/
inductive HidCommand
  | ping
  | msg
  | lock
  | init
  | wink
  | cbor
  | cancel
  | keepAlive
  | error
  | vendor (code : Nat)
deriving DecidableEq

/-- `TryFrom<u8> for VendorCommand` of ctaphid-dispatch: the vendor range
is 0x40..=0x7F. -/
def vendorCommandOfByte (b : Nat) : Option Nat :=
  if 0x40 ≤ b ∧ b ≤ 0x7f then some b else none

/-- `TryFrom<u8> for Command` of ctaphid-dispatch: the named CTAPHID
commands at their standard byte codes, falling back to the vendor range. -/
def hidCommandOfByte (b : Nat) : Option HidCommand :=
  if b = 0x01 then some HidCommand.ping
  else if b = 0x03 then some HidCommand.msg
  else if b = 0x04 then some HidCommand.lock
  else if b = 0x06 then some HidCommand.init
  else if b = 0x08 then some HidCommand.wink
  else if b = 0x10 then some HidCommand.cbor
  else if b = 0x11 then some HidCommand.cancel
  else if b = 0x3b then some HidCommand.keepAlive
  else if b = 0x3f then some HidCommand.error
  else
    match vendorCommandOfByte b with
    | some c => some (HidCommand.vendor c)
    | none => none

/-- `impl TryFrom<VendorCommand> for Command` (src/admin.rs lines 70-84). -/
def command_tryFrom_vendor (code : Nat) : Except Error Command :=
  if code = UPDATE then Except.ok Command.update
  else if code = REBOOT then Except.ok Command.reboot
  else if code = RNG then Except.ok Command.rng
  else if code = VERSION then Except.ok Command.version
  else if code = UUID then Except.ok Command.uuid
  else if code = LOCKED then Except.ok Command.locked
  else Except.error Error.unsupportedCommand

/-- `impl TryFrom<HidCommand> for Command` (src/admin.rs lines 58-68):
the standard wink command maps to `Command::Wink`, vendor commands go
through the vendor lookup, everything else is unsupported. -/
def command_tryFrom_hid : HidCommand → Except Error Command
  | HidCommand.wink => Except.ok Command.wink
  | HidCommand.vendor code => command_tryFrom_vendor code
  | _ => Except.error Error.unsupportedCommand

/-- `impl TryFrom<u8> for Command` (src/admin.rs lines 42-56): first parse
the byte as a CTAPHID command and resolve that; any failure along the way
collapses to `UnsupportedCommand`. -/
def command_tryFrom_u8 (b : Nat) : Except Error Command :=
  match hidCommandOfByte b with
  | some h =>
    match command_tryFrom_hid h with
    | Except.ok c => Except.ok c
    | Except.error _ => Except.error Error.unsupportedCommand
  | none => Except.error Error.unsupportedCommand

/-- CTAPHID app-level error (`ctaphid_dispatch::app::Error`); only the two
variants produced by this app are modelled. -/
inductive HidError
  | invalidCommand
  | invalidLength
deriving DecidableEq

/-- `impl From<Error> for hid::Error` (src/admin.rs lines 92-101).  Note
that `NotAvailable` is folded onto `InvalidLength` (marked TODO in the
source). -/
def hidErrorFrom : Error → HidError
  | Error.invalidLength => HidError.invalidLength
  | Error.notAvailable => HidError.invalidLength
  | Error.unsupportedCommand => HidError.invalidCommand

/-- ISO 7816 status words (`iso7816::Status`); only the variants produced
by this app are modelled. -/
inductive Status
  | wrongLength
  | conditionsOfUseNotSatisfied
  | instructionNotSupportedOrInvalid
deriving DecidableEq

/-- `impl From<Error> for Status` (src/admin.rs lines 103-111). -/
def statusFrom : Error → Status
  | Error.invalidLength => Status.wrongLength
  | Error.notAvailable => Status.conditionsOfUseNotSatisfied
  | Error.unsupportedCommand => Status.instructionNotSupportedOrInvalid

/-- Observable calls into the collaborators: the `Reboot` capability
(`reboot`, `reboot_to_firmware_update`,
`reboot_to_firmware_update_destructive`, `locked`) and the trussed client
(`random_bytes`, `confirm_user_present`, `wink`). -/
inductive Effect
  | rebootDevice
  | rebootFirmware
  | rebootFirmwareDestructive
  | lockedQuery
  | rngRequest
  | presenceCheck
  | winkCue
deriving DecidableEq

/-- Results the collaborator doubles return: `confirm_user_present`
outcome, the bytes `random_bytes` hands back, and the `Reboot::locked`
state. -/
structure Env where
  userPresent : Bool
  randomBytes : List Nat
  locked : Bool
deriving DecidableEq

/-- Immutable endpoint state (`struct App` fields `uuid` and `version`;
the trussed client and phantom reboot marker live in `Env` / `Effect`). -/
structure App where
  uuid : List Nat
  version : Nat
deriving DecidableEq

/-- Outcome of one `exec` call: the response buffer after the call, the
returned `Result<(), Error>`, and the collaborator calls made, in order. -/
structure ExecOut where
  buf : List Nat
  result : Except Error Unit
  effects : List Effect
deriving DecidableEq

/-- `heapless::Vec::push` followed by `.ok()`: appends one byte if there
is room, otherwise leaves the buffer unchanged (error discarded). -/
def vecPush (N : Nat) (buf : List Nat) (b : Nat) : List Nat :=
  if buf.length < N then buf ++ [b] else buf

/-- `heapless::Vec::extend_from_slice` followed by `.ok()`: all-or-nothing
append of a slice, error discarded. -/
def vecExtendFromSlice (N : Nat) (buf other : List Nat) : List Nat :=
  if buf.length + other.length ≤ N then buf ++ other else buf

/-- `u32::to_be_bytes`: the four big-endian bytes of a 32-bit value. -/
def toBeBytes32 (v : Nat) : List Nat :=
  [v / 16777216 % 256, v / 65536 % 256, v / 256 % 256, v % 256]

/-- Big-endian value of a byte list (base-256 fold), used to state that
`toBeBytes32` really is the big-endian encoding. -/
def beToNat (l : List Nat) : Nat :=
  l.foldl (fun acc b => acc * 256 + b) 0

/-- `App::exec` (src/admin.rs lines 159-196) over a buffer of capacity
`N`.  The non-returning reboot calls are recorded as effects and the call
then returns `Ok(())`, the behavior of a recording double. -/
def exec (N : Nat) (env : Env) (st : App) (command : Command) (flag : Option Nat)
    (response : List Nat) : ExecOut :=
  match command with
  | Command.reboot => ⟨response, Except.ok (), [Effect.rebootDevice]⟩
  | Command.locked =>
    ⟨vecPush N response (if env.locked then 1 else 0), Except.ok (), [Effect.lockedQuery]⟩
  | Command.rng =>
    ⟨vecExtendFromSlice N response env.randomBytes, Except.ok (), [Effect.rngRequest]⟩
  | Command.update =>
    if env.userPresent then
      if flag = some 0x01 then
        ⟨response, Except.ok (), [Effect.presenceCheck, Effect.rebootFirmwareDestructive]⟩
      else
        ⟨response, Except.ok (), [Effect.presenceCheck, Effect.rebootFirmware]⟩
    else
      ⟨response, Except.error Error.notAvailable, [Effect.presenceCheck]⟩
  | Command.uuid =>
    ⟨vecExtendFromSlice N response st.uuid, Except.ok (), []⟩
  | Command.version =>
    ⟨vecExtendFromSlice N response (toBeBytes32 st.version), Except.ok (), []⟩
  | Command.wink =>
    ⟨response, Except.ok (), [Effect.winkCue]⟩

/-- Outcome of one CTAPHID dispatch: buffer, `hid::AppResult`, effects. -/
structure HidOut where
  buf : List Nat
  result : Except HidError Unit
  effects : List Effect
deriving DecidableEq

/-- Command-and-flag resolution step of `hid::App::call` (src/admin.rs
lines 217-225): on the namespace vendor command ADMIN, the first input
byte is the inner command byte and the second (if any) the flag; an empty
payload is `InvalidLength`; otherwise the dispatched command itself is
resolved and the first input byte (if any) is the flag. -/
def hidResolve (command : HidCommand) (inputData : List Nat) :
    Except Error (Command × Option Nat) :=
  if command = HidCommand.vendor ADMIN then
    match inputData with
    | [] => Except.error Error.invalidLength
    | c :: input =>
      match command_tryFrom_u8 c with
      | Except.ok cmd => Except.ok (cmd, input.head?)
      | Except.error e => Except.error e
  else
    match command_tryFrom_hid command with
    | Except.ok cmd => Except.ok (cmd, inputData.head?)
    | Except.error e => Except.error e

/-- `hid::App::call` (src/admin.rs lines 216-227): resolve, then execute,
converting errors with `From<Error> for hid::Error`. -/
def hidCall (N : Nat) (env : Env) (st : App) (command : HidCommand)
    (inputData : List Nat) (response : List Nat) : HidOut :=
  match hidResolve command inputData with
  | Except.error e => ⟨response, Except.error (hidErrorFrom e), []⟩
  | Except.ok (cmd, flag) =>
    let out := exec N env st cmd flag response
    ⟨out.buf, out.result.mapError hidErrorFrom, out.effects⟩

/-- The APDU interface a command arrived on (`apdu::Interface`). -/
inductive Interface
  | contact
  | contactless
deriving DecidableEq

/-- Outcome of one APDU dispatch: buffer, `apdu::Result`, effects. -/
structure ApduOut where
  buf : List Nat
  result : Except Status Unit
  effects : List Effect
deriving DecidableEq

/-- `apdu::App::call` (src/admin.rs lines 251-261): the instruction byte
is resolved directly as a command; Reboot is rejected off the contact
interface with `ConditionsOfUseNotSatisfied`; `p1` is always passed as
the flag. -/
def apduCall (N : Nat) (env : Env) (st : App) (interface : Interface)
    (instruction : Nat) (p1 : Nat) (reply : List Nat) : ApduOut :=
  match command_tryFrom_u8 instruction with
  | Except.error e => ⟨reply, Except.error (statusFrom e), []⟩
  | Except.ok cmd =>
    if cmd = Command.reboot ∧ interface ≠ Interface.contact then
      ⟨reply, Except.error Status.conditionsOfUseNotSatisfied, []⟩
    else
      let out := exec N env st cmd (some p1) reply
      ⟨out.buf, out.result.mapError statusFrom, out.effects⟩

/-- The seven legacy raw command bytes: wink plus the six legacy vendor
codes. -/
def legacyBytes : List Nat :=
  [0x08, UPDATE, REBOOT, RNG, VERSION, UUID, LOCKED]

/-- The seven canonical commands. -/
def canonicalCommands : List Command :=
  [Command.update, Command.reboot, Command.rng, Command.version,
   Command.uuid, Command.locked, Command.wink]

/-! Sanity checks of the embedding on concrete inputs. -/

example : command_tryFrom_u8 0x53 = Except.ok Command.reboot := by decide

example : command_tryFrom_u8 0x08 = Except.ok Command.wink := by decide

example : command_tryFrom_u8 0x72 = Except.error Error.unsupportedCommand := by decide

example : command_tryFrom_u8 0x01 = Except.error Error.unsupportedCommand := by decide

example :
    hidCall 100 ⟨true, [], false⟩ ⟨[], 0x01020304⟩ (HidCommand.vendor VERSION) [] [] =
      ⟨[1, 2, 3, 4], Except.ok (), []⟩ := by decide

example :
    hidCall 100 ⟨true, [], false⟩ ⟨[], 0x01020304⟩ (HidCommand.vendor ADMIN) [0x61] [] =
      ⟨[1, 2, 3, 4], Except.ok (), []⟩ := by decide

/-- C8 (claim): on the vendor channel the `NotAvailable` executor error
converts to the same vendor-channel error code as `InvalidLength`, while
on the smartcard channel `NotAvailable` converts to the distinct
`ConditionsOfUseNotSatisfied` status. -/
theorem notAvailable_error_mapping :
    hidErrorFrom Error.notAvailable = hidErrorFrom Error.invalidLength ∧
    hidErrorFrom Error.notAvailable = HidError.invalidLength ∧
    statusFrom Error.notAvailable = Status.conditionsOfUseNotSatisfied ∧
    statusFrom Error.notAvailable ≠ statusFrom Error.invalidLength := by
  refine ⟨rfl, rfl, rfl, ?_⟩
  decide

/-- C2 (claim): a smartcard dispatch whose instruction resolves to Reboot,
arriving on a non-contact interface, returns `ConditionsOfUseNotSatisfied`,
leaves the buffer untouched, and makes no collaborator call at all (in
particular the reboot capability is never invoked). -/
theorem apdu_reboot_contactless_rejected (N : Nat) (env : Env) (st : App)
    (interface : Interface) (instruction p1 : Nat) (reply : List Nat)
    (hins : command_tryFrom_u8 instruction = Except.ok Command.reboot)
    (hif : interface ≠ Interface.contact) :
    apduCall N env st interface instruction p1 reply =
      ⟨reply, Except.error Status.conditionsOfUseNotSatisfied, []⟩ := by
  unfold apduCall
  rw [hins]
  simp [hif]

theorem apdu_reboot_contactless_rejected_witness :
    apduCall 8 ⟨true, [], false⟩ ⟨[], 0⟩ Interface.contactless 0x53 0 [] =
      ⟨[], Except.error Status.conditionsOfUseNotSatisfied, []⟩ :=
  apdu_reboot_contactless_rejected 8 ⟨true, [], false⟩ ⟨[], 0⟩
    Interface.contactless 0x53 0 [] (by decide) (by decide)

/-- C3 (claim): executing Update without a confirmed user presence returns
`NotAvailable`, invokes neither firmware-entry reboot variant, and leaves
the buffer untouched; the only collaborator call is the presence check. -/
theorem update_without_presence_not_available (N : Nat) (env : Env) (st : App)
    (flag : Option Nat) (response : List Nat)
    (h : env.userPresent = false) :
    exec N env st Command.update flag response =
      ⟨response, Except.error Error.notAvailable, [Effect.presenceCheck]⟩ ∧
    Effect.rebootFirmware ∉ (exec N env st Command.update flag response).effects ∧
    Effect.rebootFirmwareDestructive ∉
      (exec N env st Command.update flag response).effects := by
  have he : exec N env st Command.update flag response =
      ⟨response, Except.error Error.notAvailable, [Effect.presenceCheck]⟩ := by
    unfold exec
    rw [h]
    simp
  refine ⟨he, ?_, ?_⟩ <;> rw [he] <;> simp

theorem update_without_presence_not_available_witness :
    exec 8 ⟨false, [], false⟩ ⟨[], 0⟩ Command.update none [] =
      ⟨[], Except.error Error.notAvailable, [Effect.presenceCheck]⟩ :=
  (update_without_presence_not_available 8 ⟨false, [], false⟩ ⟨[], 0⟩ none [] rfl).1

/-- C4 (claim): executing Update with user presence confirmed invokes the
destructive firmware-entry variant exactly when the flag byte is `0x01`,
and the normal variant for every other flag value, including an absent
flag; either way the call succeeds and appends nothing. -/
theorem update_with_presence_variant (N : Nat) (env : Env) (st : App)
    (flag : Option Nat) (response : List Nat)
    (h : env.userPresent = true) :
    (flag = some 0x01 →
      exec N env st Command.update flag response =
        ⟨response, Except.ok (), [Effect.presenceCheck, Effect.rebootFirmwareDestructive]⟩) ∧
    (flag ≠ some 0x01 →
      exec N env st Command.update flag response =
        ⟨response, Except.ok (), [Effect.presenceCheck, Effect.rebootFirmware]⟩) := by
  constructor <;> intro hf <;> unfold exec <;> rw [h] <;> simp [hf]

theorem update_with_presence_variant_witness :
    exec 8 ⟨true, [], false⟩ ⟨[], 0⟩ Command.update (some 0x01) [] =
      ⟨[], Except.ok (), [Effect.presenceCheck, Effect.rebootFirmwareDestructive]⟩ ∧
    exec 8 ⟨true, [], false⟩ ⟨[], 0⟩ Command.update (some 0x00) [] =
      ⟨[], Except.ok (), [Effect.presenceCheck, Effect.rebootFirmware]⟩ ∧
    exec 8 ⟨true, [], false⟩ ⟨[], 0⟩ Command.update none [] =
      ⟨[], Except.ok (), [Effect.presenceCheck, Effect.rebootFirmware]⟩ :=
  ⟨(update_with_presence_variant 8 ⟨true, [], false⟩ ⟨[], 0⟩ (some 0x01) [] rfl).1 rfl,
   (update_with_presence_variant 8 ⟨true, [], false⟩ ⟨[], 0⟩ (some 0x00) [] rfl).2 (by decide),
   (update_with_presence_variant 8 ⟨true, [], false⟩ ⟨[], 0⟩ none [] rfl).2 (by decide)⟩

/-- Helper: every value of the `Command` enumeration is one of the seven
canonical commands. -/
theorem command_mem_canonical (c : Command) : c ∈ canonicalCommands := by
  cases c <;> simp [canonicalCommands]

/-- Helper: `command_tryFrom_u8` either succeeds or fails with precisely
`UnsupportedCommand` (every error branch of the source constructs that
variant). -/
theorem resolve_shape (b : Nat) :
    (∃ c, command_tryFrom_u8 b = Except.ok c) ∨
    command_tryFrom_u8 b = Except.error Error.unsupportedCommand := by
  cases h1 : hidCommandOfByte b with
  | none => exact Or.inr (by simp [command_tryFrom_u8, h1])
  | some hc =>
    cases h2 : command_tryFrom_hid hc with
    | ok c => exact Or.inl ⟨c, by simp [command_tryFrom_u8, h1, h2]⟩
    | error e => exact Or.inr (by simp [command_tryFrom_u8, h1, h2])

/-- C5 (claim): command resolution is total over the byte space: every
byte 0..=255 resolves to one of the seven canonical commands or fails
with `UnsupportedCommand`; no other outcome is possible. -/
theorem resolution_total_over_bytes (b : Nat) (hb : b < 256) :
    (∃ c, command_tryFrom_u8 b = Except.ok c ∧ c ∈ canonicalCommands) ∨
    command_tryFrom_u8 b = Except.error Error.unsupportedCommand := by
  rcases resolve_shape b with ⟨c, hc⟩ | h
  · exact Or.inl ⟨c, hc, command_mem_canonical c⟩
  · exact Or.inr h

theorem resolution_total_over_bytes_witness :
    (∃ c, command_tryFrom_u8 0x60 = Except.ok c ∧ c ∈ canonicalCommands) ∨
    command_tryFrom_u8 0x60 = Except.error Error.unsupportedCommand :=
  resolution_total_over_bytes 0x60 (by decide)

set_option maxRecDepth 10000 in
/-- Helper: outside the seven legacy bytes, byte resolution fails with
`UnsupportedCommand`, for every byte value. -/
theorem nonlegacy_unsupported_aux : ∀ b, b < 256 → b ∉ legacyBytes →
    command_tryFrom_u8 b = Except.error Error.unsupportedCommand := by
  decide

/-- Helper: the vendor-command lookup only ever fails with
`UnsupportedCommand`. -/
theorem command_tryFrom_vendor_error (code : Nat) (e : Error)
    (h : command_tryFrom_vendor code = Except.error e) :
    e = Error.unsupportedCommand := by
  unfold command_tryFrom_vendor at h
  split_ifs at h <;> simp_all

/-- Helper: the HID-command lookup only ever fails with
`UnsupportedCommand`. -/
theorem command_tryFrom_hid_error (hc : HidCommand) (e : Error)
    (he : command_tryFrom_hid hc = Except.error e) :
    e = Error.unsupportedCommand := by
  cases hc
  case vendor code => exact command_tryFrom_vendor_error code e he
  all_goals simp_all [command_tryFrom_hid]

/-- Helper: when the byte parses as a HID command but byte resolution
fails, the HID-command resolution fails the same way. -/
theorem command_tryFrom_u8_some_error (b : Nat) (hc : HidCommand)
    (hh : hidCommandOfByte b = some hc)
    (hu : command_tryFrom_u8 b = Except.error Error.unsupportedCommand) :
    command_tryFrom_hid hc = Except.error Error.unsupportedCommand := by
  cases h2 : command_tryFrom_hid hc with
  | ok c =>
    have hok : command_tryFrom_u8 b = Except.ok c := by
      simp [command_tryFrom_u8, hh, h2]
    rw [hok] at hu
    exact absurd hu (by simp)
  | error e => rw [command_tryFrom_hid_error hc e h2]

/-- C1 (claim): for each of the seven legacy raw command bytes, the direct
path (CTAPHID parse of the byte, then `TryFrom<HidCommand>`) and the
namespaced path (`TryFrom<u8>` on the inner command byte) resolve to the
same canonical command, and for every other byte both paths fail with
`UnsupportedCommand`. -/
theorem legacy_codes_stable_across_paths (b : Nat) (hb : b < 256) :
    (b ∈ legacyBytes →
      ∃ hc c, hidCommandOfByte b = some hc ∧
        command_tryFrom_hid hc = Except.ok c ∧
        command_tryFrom_u8 b = Except.ok c) ∧
    (b ∉ legacyBytes →
      command_tryFrom_u8 b = Except.error Error.unsupportedCommand ∧
      ∀ hc, hidCommandOfByte b = some hc →
        command_tryFrom_hid hc = Except.error Error.unsupportedCommand) := by
  constructor
  · intro hmem
    simp [legacyBytes, UPDATE, REBOOT, RNG, VERSION, UUID, LOCKED] at hmem
    rcases hmem with rfl | rfl | rfl | rfl | rfl | rfl | rfl
    · exact ⟨HidCommand.wink, Command.wink, by decide, by decide, by decide⟩
    · exact ⟨HidCommand.vendor 0x51, Command.update, by decide, by decide, by decide⟩
    · exact ⟨HidCommand.vendor 0x53, Command.reboot, by decide, by decide, by decide⟩
    · exact ⟨HidCommand.vendor 0x60, Command.rng, by decide, by decide, by decide⟩
    · exact ⟨HidCommand.vendor 0x61, Command.version, by decide, by decide, by decide⟩
    · exact ⟨HidCommand.vendor 0x62, Command.uuid, by decide, by decide, by decide⟩
    · exact ⟨HidCommand.vendor 0x63, Command.locked, by decide, by decide, by decide⟩
  · intro hmem
    have hu8 := nonlegacy_unsupported_aux b hb hmem
    exact ⟨hu8, fun hc hh => command_tryFrom_u8_some_error b hc hh hu8⟩

theorem legacy_codes_stable_across_paths_witness :
    (∃ hc c, hidCommandOfByte 0x53 = some hc ∧
      command_tryFrom_hid hc = Except.ok c ∧
      command_tryFrom_u8 0x53 = Except.ok c) ∧
    (command_tryFrom_u8 0x54 = Except.error Error.unsupportedCommand ∧
      ∀ hc, hidCommandOfByte 0x54 = some hc →
        command_tryFrom_hid hc = Except.error Error.unsupportedCommand) :=
  ⟨(legacy_codes_stable_across_paths 0x53 (by decide)).1 (by decide),
   (legacy_codes_stable_across_paths 0x54 (by decide)).2 (by decide)⟩

/-- C6 (claim): executing Version appends exactly the four big-endian
bytes of the configured 32-bit version to the response buffer, nothing
else, and succeeds; the four appended bytes are bytes (< 256) and decode
back to the version in base 256. -/
theorem version_appends_be_bytes (N : Nat) (env : Env) (st : App) (flag : Option Nat)
    (response : List Nat) (hcap : response.length + 4 ≤ N)
    (hv : st.version < 2 ^ 32) :
    exec N env st Command.version flag response =
      ⟨response ++ toBeBytes32 st.version, Except.ok (), []⟩ ∧
    (toBeBytes32 st.version).length = 4 ∧
    beToNat (toBeBytes32 st.version) = st.version ∧
    ∀ byte ∈ toBeBytes32 st.version, byte < 256 := by
  have hlen : (toBeBytes32 st.version).length = 4 := rfl
  refine ⟨?_, hlen, ?_, ?_⟩
  · unfold exec vecExtendFromSlice
    rw [hlen, if_pos hcap]
  · have hv4 : st.version < 4294967296 := by
      calc st.version < 2 ^ 32 := hv
        _ = 4294967296 := by norm_num
    simp only [beToNat, toBeBytes32, List.foldl]
    omega
  · intro byte hmem
    simp [toBeBytes32] at hmem
    rcases hmem with rfl | rfl | rfl | rfl <;> omega

theorem version_appends_be_bytes_witness :
    exec 8 ⟨true, [], false⟩ ⟨[], 16909060⟩ Command.version none [] =
      ⟨[] ++ toBeBytes32 16909060, Except.ok (), []⟩ ∧
    (toBeBytes32 (16909060 : Nat)).length = 4 ∧
    beToNat (toBeBytes32 16909060) = 16909060 ∧
    ∀ byte ∈ toBeBytes32 (16909060 : Nat), byte < 256 :=
  version_appends_be_bytes 8 ⟨true, [], false⟩ ⟨[], 16909060⟩ none []
    (by decide) (by norm_num)

/-- C7 (claim): a raw code that the dispatch fails to resolve never
reaches the Executor (no collaborator call, buffer untouched) and is
reported with the channel-native unsupported-command encoding:
`InvalidCommand` on the vendor channel (both in direct mode and for an
unresolvable inner byte in namespace mode) and
`InstructionNotSupportedOrInvalid` on the smartcard channel. -/
theorem unresolvable_code_never_executes (N : Nat) (env : Env) (st : App) :
    (∀ hc : HidCommand, hc ≠ HidCommand.vendor ADMIN →
      command_tryFrom_hid hc = Except.error Error.unsupportedCommand →
      ∀ input response, hidCall N env st hc input response =
        ⟨response, Except.error HidError.invalidCommand, []⟩) ∧
    (∀ b input response,
      command_tryFrom_u8 b = Except.error Error.unsupportedCommand →
      hidCall N env st (HidCommand.vendor ADMIN) (b :: input) response =
        ⟨response, Except.error HidError.invalidCommand, []⟩) ∧
    (∀ (interface : Interface) (instruction p1 : Nat) (reply : List Nat),
      command_tryFrom_u8 instruction = Except.error Error.unsupportedCommand →
      apduCall N env st interface instruction p1 reply =
        ⟨reply, Except.error Status.instructionNotSupportedOrInvalid, []⟩) := by
  refine ⟨?_, ?_, ?_⟩
  · intro hc hne hres input response
    simp [hidCall, hidResolve, hne, hres, hidErrorFrom]
  · intro b input response hres
    simp [hidCall, hidResolve, hres, hidErrorFrom]
  · intro interface instruction p1 reply hres
    simp [apduCall, hres, statusFrom]

theorem unresolvable_code_never_executes_witness :
    hidCall 8 ⟨true, [], false⟩ ⟨[], 0⟩ (HidCommand.vendor 0x40) [] [] =
      ⟨[], Except.error HidError.invalidCommand, []⟩ ∧
    hidCall 8 ⟨true, [], false⟩ ⟨[], 0⟩ (HidCommand.vendor ADMIN) [0x00] [] =
      ⟨[], Except.error HidError.invalidCommand, []⟩ ∧
    apduCall 8 ⟨true, [], false⟩ ⟨[], 0⟩ Interface.contact 0x00 0 [] =
      ⟨[], Except.error Status.instructionNotSupportedOrInvalid, []⟩ :=
  ⟨(unresolvable_code_never_executes 8 ⟨true, [], false⟩ ⟨[], 0⟩).1
      (HidCommand.vendor 0x40) (by decide) (by decide) [] [],
   (unresolvable_code_never_executes 8 ⟨true, [], false⟩ ⟨[], 0⟩).2.1 0x00 [] [] (by decide),
   (unresolvable_code_never_executes 8 ⟨true, [], false⟩ ⟨[], 0⟩).2.2
      Interface.contact 0x00 0 [] (by decide)⟩

/-- Helper: an Update execution never changes the buffer, whatever the
presence outcome and flag. -/
theorem exec_update_buf (N : Nat) (env : Env) (st : App) (flag : Option Nat)
    (response : List Nat) :
    (exec N env st Command.update flag response).buf = response := by
  unfold exec
  by_cases hp : env.userPresent <;> by_cases hf : flag = some 0x01 <;> simp [hp, hf]

/-- Helper: whenever `exec` returns an error, the buffer is exactly the
input buffer (the only error path, `NotAvailable`, precedes any append). -/
theorem exec_error_unchanged (N : Nat) (env : Env) (st : App) (command : Command)
    (flag : Option Nat) (response : List Nat) (e : Error)
    (h : (exec N env st command flag response).result = Except.error e) :
    (exec N env st command flag response).buf = response := by
  cases command
  case update => exact exec_update_buf N env st flag response
  all_goals simp [exec] at h

/-- C9 (claim): on either channel, a dispatch that returns an error leaves
the caller-supplied response buffer exactly as it was on entry. -/
theorem error_leaves_buffer_unchanged (N : Nat) (env : Env) (st : App) :
    (∀ (command : HidCommand) (input response : List Nat) (e : HidError),
      (hidCall N env st command input response).result = Except.error e →
      (hidCall N env st command input response).buf = response) ∧
    (∀ (interface : Interface) (instruction p1 : Nat) (reply : List Nat) (s : Status),
      (apduCall N env st interface instruction p1 reply).result = Except.error s →
      (apduCall N env st interface instruction p1 reply).buf = reply) := by
  constructor
  · intro command input response e h
    cases h1 : hidResolve command input with
    | error e0 => simp [hidCall, h1]
    | ok p =>
      obtain ⟨cmd, flag⟩ := p
      simp only [hidCall, h1] at h ⊢
      cases h2 : (exec N env st cmd flag response).result with
      | ok u => rw [h2] at h; simp [Except.mapError] at h
      | error e0 => exact exec_error_unchanged N env st cmd flag response e0 h2
  · intro interface instruction p1 reply s h
    cases h1 : command_tryFrom_u8 instruction with
    | error e0 => simp [apduCall, h1]
    | ok cmd =>
      by_cases h2 : cmd = Command.reboot ∧ interface ≠ Interface.contact
      · simp [apduCall, h1, h2]
      · simp only [apduCall, h1, if_neg h2] at h ⊢
        cases h3 : (exec N env st cmd (some p1) reply).result with
        | ok u => rw [h3] at h; simp [Except.mapError] at h
        | error e0 => exact exec_error_unchanged N env st cmd (some p1) reply e0 h3

theorem error_leaves_buffer_unchanged_witness :
    (hidCall 8 ⟨false, [], false⟩ ⟨[], 0⟩ (HidCommand.vendor UPDATE) [] [1, 2]).buf =
      [1, 2] ∧
    (apduCall 8 ⟨true, [], false⟩ ⟨[], 0⟩ Interface.contact 0x00 0 [3]).buf = [3] :=
  ⟨(error_leaves_buffer_unchanged 8 ⟨false, [], false⟩ ⟨[], 0⟩).1
      (HidCommand.vendor UPDATE) [] [1, 2] HidError.invalidLength (by decide),
   (error_leaves_buffer_unchanged 8 ⟨true, [], false⟩ ⟨[], 0⟩).2
      Interface.contact 0x00 0 [3] Status.instructionNotSupportedOrInvalid (by decide)⟩

/-- C10 (claim): the smartcard channel always passes `Some(p1)` as the
flag, so the absent-flag case is unreachable there, and an Update
dispatched over it with any `p1` other than 0x01 — including 0x00 —
selects the normal firmware-entry variant. -/
theorem apdu_flag_always_present (N : Nat) (env : Env) (st : App)
    (interface : Interface) (instruction p1 : Nat) (reply : List Nat)
    (hins : command_tryFrom_u8 instruction = Except.ok Command.update) :
    apduCall N env st interface instruction p1 reply =
      ⟨(exec N env st Command.update (some p1) reply).buf,
       (exec N env st Command.update (some p1) reply).result.mapError statusFrom,
       (exec N env st Command.update (some p1) reply).effects⟩ ∧
    (env.userPresent = true → p1 ≠ 0x01 →
      (apduCall N env st interface instruction p1 reply).effects =
        [Effect.presenceCheck, Effect.rebootFirmware]) := by
  have h1 : apduCall N env st interface instruction p1 reply =
      ⟨(exec N env st Command.update (some p1) reply).buf,
       (exec N env st Command.update (some p1) reply).result.mapError statusFrom,
       (exec N env st Command.update (some p1) reply).effects⟩ := by
    simp [apduCall, hins]
  refine ⟨h1, ?_⟩
  intro hpres hp1
  rw [h1]
  simp [exec, hpres, hp1]

theorem apdu_flag_always_present_witness :
    apduCall 8 ⟨true, [], false⟩ ⟨[], 0⟩ Interface.contactless 0x51 0 [] =
      ⟨(exec 8 ⟨true, [], false⟩ ⟨[], 0⟩ Command.update (some 0) []).buf,
       (exec 8 ⟨true, [], false⟩ ⟨[], 0⟩ Command.update (some 0) []).result.mapError
         statusFrom,
       (exec 8 ⟨true, [], false⟩ ⟨[], 0⟩ Command.update (some 0) []).effects⟩ ∧
    (apduCall 8 ⟨true, [], false⟩ ⟨[], 0⟩ Interface.contactless 0x51 0 []).effects =
      [Effect.presenceCheck, Effect.rebootFirmware] :=
  ⟨(apdu_flag_always_present 8 ⟨true, [], false⟩ ⟨[], 0⟩ Interface.contactless
      0x51 0 [] (by decide)).1,
   (apdu_flag_always_present 8 ⟨true, [], false⟩ ⟨[], 0⟩ Interface.contactless
      0x51 0 [] (by decide)).2 rfl (by decide)⟩

end AdminApp
